import Mathlib

/-!
Verification of the `blackbox.stats.distributions` module: a library of
probability distributions whose log-density evaluators are built on an
external differentiable tensor engine.  Tensors of rank at most two are
modelled over `ℚ`; the transcendental special functions and the matrix
inverse/determinant kernels of the external engine are abstracted as
parameters (`Prims`), since the module treats them as pure mathematical
primitives supplied externally.
-/

set_option autoImplicit false

namespace Blackbox

/-- Rank-at-most-two tensors with rational entries: the scalars, vectors
and matrices that the distribution methods accept. -/
inductive Tensor where
  | scalar : ℚ → Tensor
  | vector : List ℚ → Tensor
  | matrix : List (List ℚ) → Tensor
deriving DecidableEq

/-- Modelled from the spec: the external special-function primitives
(log-Gamma, log-Beta, log-inverse-gamma normalizer, log-Dirichlet
normalizer, log-multinomial coefficient, supplied by `blackbox.util`,
which is outside the sources) and the numeric kernels of the external
differentiable tensor engine (elementwise natural logarithm, the constant
`log(2*pi)`, the constant `log(pi)`, matrix inverse, matrix determinant).
The spec treats all of these as pure mathematical functions with no
state, so they are abstracted as parameters of the development. -/
structure Prims where
  log : ℚ → ℚ
  log2pi : ℚ
  logPi : ℚ
  logBeta : ℚ → ℚ → ℚ
  logGamma : ℚ → ℚ
  logInvGamma : ℚ → ℚ → ℚ
  logDirichlet : Tensor → ℚ
  logMultinomial : Tensor → Tensor → ℚ
  matInv : List (List ℚ) → List (List ℚ)
  matDet : List (List ℚ) → ℚ

/-- Elementwise application of a unary function to a tensor, the model of
the engine applying a scalar kernel pointwise (`tf.log`, scaling by a
Python float, adding a Python float, and so on). -/
def tmap (f : ℚ → ℚ) : Tensor → Tensor
  | Tensor.scalar a => Tensor.scalar (f a)
  | Tensor.vector v => Tensor.vector (v.map f)
  | Tensor.matrix m => Tensor.matrix (m.map (List.map f))

/-- Broadcast combination of two lists viewed as one-dimensional shapes:
equal lengths combine pointwise, a length-one operand is stretched, any
other pair of lengths is a shape mismatch. -/
def bcastVV (f : ℚ → ℚ → ℚ) (v w : List ℚ) : Option (List ℚ) :=
  if v.length = w.length then some (List.zipWith f v w)
  else if v.length = 1 then some (w.map (f (v.headD 0)))
  else if w.length = 1 then some (v.map (fun a => f a (w.headD 0)))
  else none

/-- Collect a list of optional rows into an optional matrix, failing as
soon as one row failed. -/
def allSome : List (Option (List ℚ)) → Option (List (List ℚ))
  | [] => some []
  | none :: _ => none
  | some r :: rest => (allSome rest).map (fun m => r :: m)

/-- Broadcast combination of two matrices row by row. -/
def bcastMM (f : ℚ → ℚ → ℚ) (m m2 : List (List ℚ)) :
    Option (List (List ℚ)) :=
  if m.length = m2.length then
    allSome ((m.zip m2).map (fun p => bcastVV f p.1 p.2))
  else if m.length = 1 then
    allSome (m2.map (fun r => bcastVV f (m.headD []) r))
  else if m2.length = 1 then
    allSome (m.map (fun r => bcastVV f r (m2.headD [])))
  else none

/-- Elementwise binary operation with numpy-style broadcasting on tensors
of rank at most two: the model of the engine operators `+`, `-`, `*`, `/`
on tensors.  A shape mismatch yields `none`, the model of the shape error
raised by the engine. -/
def bcast (f : ℚ → ℚ → ℚ) : Tensor → Tensor → Option Tensor
  | Tensor.scalar a, Tensor.scalar b => some (Tensor.scalar (f a b))
  | Tensor.scalar a, Tensor.vector w => some (Tensor.vector (w.map (f a)))
  | Tensor.scalar a, Tensor.matrix m =>
      some (Tensor.matrix (m.map (List.map (f a))))
  | Tensor.vector v, Tensor.scalar b =>
      some (Tensor.vector (v.map (fun x => f x b)))
  | Tensor.matrix m, Tensor.scalar b =>
      some (Tensor.matrix (m.map (List.map (fun x => f x b))))
  | Tensor.vector v, Tensor.vector w => (bcastVV f v w).map Tensor.vector
  | Tensor.vector v, Tensor.matrix m =>
      (allSome (m.map (fun r => bcastVV f v r))).map Tensor.matrix
  | Tensor.matrix m, Tensor.vector w =>
      (allSome (m.map (fun r => bcastVV f r w))).map Tensor.matrix
  | Tensor.matrix m, Tensor.matrix m2 => (bcastMM f m m2).map Tensor.matrix

/-- Model of `tf.squeeze`: all dimensions of size one are removed. -/
def squeeze : Tensor → Tensor
  | Tensor.scalar a => Tensor.scalar a
  | Tensor.vector v =>
      if v.length = 1 then Tensor.scalar (v.headD 0) else Tensor.vector v
  | Tensor.matrix m =>
      if m.length = 1 then
        (if (m.headD []).length = 1 then Tensor.scalar ((m.headD []).headD 0)
         else Tensor.vector (m.headD []))
      else if m.all (fun r => r.length = 1) then
        Tensor.vector (m.map (fun r => r.headD 0))
      else Tensor.matrix m

/-- Model of `tf.reduce_sum` over all entries. -/
def sumT : Tensor → ℚ
  | Tensor.scalar a => a
  | Tensor.vector v => v.sum
  | Tensor.matrix m => (m.map List.sum).sum

/-- Model of `tf.reduce_prod` over all entries. -/
def prodT : Tensor → ℚ
  | Tensor.scalar a => a
  | Tensor.vector v => v.prod
  | Tensor.matrix m => (m.map List.prod).prod

/-- Model of `tf.diag`: the square matrix whose diagonal is the given
vector and whose remaining entries are zero. -/
def diagL : List ℚ → List (List ℚ)
  | [] => []
  | a :: v =>
      (a :: List.replicate v.length 0) :: (diagL v).map (fun r => 0 :: r)

/-- Model of `tf.reshape(lps, [-1])`: the entries flattened, in order, into
a one-dimensional tensor. -/
def reshapeFlat : Tensor → Tensor
  | Tensor.scalar a => Tensor.vector [a]
  | Tensor.vector v => Tensor.vector v
  | Tensor.matrix m => Tensor.vector m.flatten

/-- Dot product of two rational lists. -/
def dotv (v w : List ℚ) : ℚ := (List.zipWith (fun a b => a * b) v w).sum

/-- Column `j` of a matrix, out-of-range entries read as zero. -/
def colGet (m : List (List ℚ)) (j : Nat) : List ℚ :=
  m.map (fun r => r.getD j 0)

/-- Model of `tf.matmul` on rank-two operands; mismatched or ragged
shapes yield `none`, the model of the shape error raised by the engine. -/
def matmulL (A B : List (List ℚ)) : Option (List (List ℚ)) :=
  if A.all (fun r => r.length = B.length) &&
     B.all (fun r => r.length = (B.headD []).length) then
    some (A.map (fun row =>
      (List.range (B.headD []).length).map (fun j => dotv row (colGet B j))))
  else none

/-- Model of `tf.transpose`: tensors of rank at most one are unchanged,
matrices are transposed. -/
def transposeT : Tensor → Tensor
  | Tensor.scalar a => Tensor.scalar a
  | Tensor.vector v => Tensor.vector v
  | Tensor.matrix m =>
      Tensor.matrix ((List.range (m.headD []).length).map (colGet m))

/-- Modelled from the spec: `blackbox.util.dot`, the "matrix dot-product
helper" among the special-function primitives (the file is outside the
sources).  It multiplies a vector with a matrix (as a one-row matrix times
the matrix) or a matrix with a vector (as the matrix times a one-column
matrix) through the engine matmul; any other rank combination is a shape
error of the engine, hence `none`. -/
def dot (x y : Tensor) : Option Tensor :=
  match x, y with
  | Tensor.vector v, Tensor.matrix m => (matmulL [v] m).map Tensor.matrix
  | Tensor.matrix m, Tensor.vector v =>
      (matmulL m (v.map (fun a => [a]))).map Tensor.matrix
  | _, _ => none

/-- Modelled from the spec: `blackbox.util.get_dims`, the
"dimension-introspection helper" (the file is outside the sources).  Per
the spec, the dimensionality is read off the leading shape entry, and a
scalar observation has dimensionality one (the spec evaluates the Normal
log-density at the scalar `x = 0` with `d = 1`). -/
def getDims : Tensor → List Nat
  | Tensor.scalar _ => [1]
  | Tensor.vector v => [v.length]
  | Tensor.matrix m => [m.length, (m.headD []).length]

/-- Entry `(i, j)` of a matrix, out-of-range entries read as zero. -/
def getEntry (m : List (List ℚ)) (i j : Nat) : ℚ := (m.getD i []).getD j 0

/-- Rank of the tensor is at most one (scalar or vector). -/
def isRankLE1 : Tensor → Bool
  | Tensor.matrix _ => false
  | _ => true

/-- Optional mean or covariance argument is absent or of rank at most
one. -/
def argRankLE1 : Option Tensor → Bool
  | none => true
  | some t => isRankLE1 t

/-- The Bernoulli distribution (stateless instance type). -/
structure Bernoulli where

/-- Model of `Bernoulli.logpmf`: `x*log(p) + (1-x)*log(1-p)` after
squeezing both arguments. -/
def Bernoulli.logpmf (self : Bernoulli) (P : Prims) (x p : Tensor) :
    Option Tensor := do
  let x := squeeze x
  let p := squeeze p
  let u ← bcast (fun a b => a * b) x (tmap P.log p)
  let v ← bcast (fun a b => a * b) (tmap (fun a => 1 - a) x)
            (tmap P.log (tmap (fun a => 1 - a) p))
  bcast (fun a b => a + b) u v

/-- The Beta distribution (stateless instance type). -/
structure Beta where

/-- Model of `Beta.logpdf`.  The source reassigns `a = tf.squeeze(b)` and
then `b = tf.squeeze(a)` sequentially, so the rebinding of `b` reads the
already-rebound `a`; the model reproduces these rebindings exactly. -/
def Beta.logpdf (self : Beta) (P : Prims) (x a b : Tensor) :
    Option Tensor := do
  let x := squeeze x
  let a := squeeze b
  let b := squeeze a
  let u ← bcast (fun p q => p * q) (tmap (fun p => p - 1) a) (tmap P.log x)
  let v ← bcast (fun p q => p * q) (tmap (fun p => p - 1) b)
            (tmap P.log (tmap (fun p => 1 - p) x))
  let w ← bcast P.logBeta a b
  let uv ← bcast (fun p q => p + q) u v
  bcast (fun p q => p - q) uv w

/-- The Dirichlet distribution (stateless instance type). -/
structure Dirichlet where

/-- Model of `Dirichlet.logpdf`:
`-log_dirichlet(alpha) + reduce_sum((alpha-1) * log(x))`. -/
def Dirichlet.logpdf (self : Dirichlet) (P : Prims) (x alpha : Tensor) :
    Option Tensor := do
  let x := squeeze x
  let alpha := squeeze alpha
  let m ← bcast (fun p q => p * q) (tmap (fun p => p - 1) alpha)
            (tmap P.log x)
  pure (Tensor.scalar (-(P.logDirichlet alpha) + sumT m))

/-- The Exponential distribution (stateless instance type). -/
structure Expon where

/-- Model of `Expon.logpdf`: `-x/scale - log(scale)`. -/
def Expon.logpdf (self : Expon) (P : Prims) (x scale : Tensor) :
    Option Tensor := do
  let x := squeeze x
  let scale := squeeze scale
  let q ← bcast (fun p r => p / r) x scale
  bcast (fun p r => p - r) (tmap (fun p => -p) q) (tmap P.log scale)

/-- The Gamma distribution, shape/scale parameterization (stateless
instance type). -/
structure Gamma where

/-- Model of `Gamma.logpdf`:
`(a-1)*log(x) - x/scale - a*log(scale) - log_gamma(a)`. -/
def Gamma.logpdf (self : Gamma) (P : Prims) (x a scale : Tensor) :
    Option Tensor := do
  let x := squeeze x
  let a := squeeze a
  let scale := squeeze scale
  let u ← bcast (fun p q => p * q) (tmap (fun p => p - 1) a) (tmap P.log x)
  let q ← bcast (fun p r => p / r) x scale
  let s1 ← bcast (fun p r => p - r) u q
  let v ← bcast (fun p q => p * q) a (tmap P.log scale)
  let s2 ← bcast (fun p r => p - r) s1 v
  bcast (fun p r => p - r) s2 (tmap P.logGamma a)

/-- The Inverse-Gamma distribution (stateless instance type). -/
structure InvGamma where

/-- Model of `InvGamma.logpdf`:
`-log_inv_gamma(alpha, beta) - (alpha+1)*log(x) - beta/x`. -/
def InvGamma.logpdf (self : InvGamma) (P : Prims) (x alpha beta : Tensor) :
    Option Tensor := do
  let x := squeeze x
  let alpha := squeeze alpha
  let beta := squeeze beta
  let w ← bcast P.logInvGamma alpha beta
  let m ← bcast (fun p q => p * q) (tmap (fun p => p + 1) alpha)
            (tmap P.log x)
  let q ← bcast (fun p r => p / r) beta x
  let s1 ← bcast (fun p r => p - r) (tmap (fun p => -p) w) m
  bcast (fun p r => p - r) s1 q

/-- The Multinomial distribution (stateless instance type). -/
structure Multinomial where

/-- Model of `Multinomial.logpmf`:
`-log_multinomial(x, n) + reduce_sum(x * log(p))`. -/
def Multinomial.logpmf (self : Multinomial) (P : Prims) (x n p : Tensor) :
    Option Tensor := do
  let x := squeeze x
  let n := squeeze n
  let p := squeeze p
  let m ← bcast (fun u v => u * v) x (tmap P.log p)
  pure (Tensor.scalar (-(P.logMultinomial x n) + sumT m))

/-- The multivariate Normal distribution (stateless instance type). -/
structure Norm where

/-- Residual computation of `Norm.logpdf`: with the mean absent the
observation is multiplied by `tf.ones([d])`, a scalar mean is subtracted
by scalar broadcasting, and any other mean is subtracted elementwise with
`tf.sub`. -/
def residual (x : Tensor) (mu : Option Tensor) (d : Nat) : Option Tensor :=
  match mu with
  | none => bcast (fun a b => a * b) (Tensor.vector (List.replicate d 1)) x
  | some (Tensor.scalar c) =>
      bcast (fun a b => a - b) x (Tensor.scalar c)
  | some m => bcast (fun a b => a - b) x m

/-- Covariance dispatch of `Norm.logpdf`: the pair `(Sigma_inv,
det_Sigma)` chosen by the rank of `Sigma`.  Absent covariance yields
`tf.diag(tf.ones([d]))` and the constant one; a scalar yields its
reciprocal and itself; a vector yields the diagonal matrix of elementwise
reciprocals and the product of its entries; a matrix yields the engine
matrix inverse and matrix determinant. -/
def sigmaInvDet (P : Prims) (d : Nat) (Sigma : Option Tensor) :
    Tensor × ℚ :=
  match Sigma with
  | none => (Tensor.matrix (diagL (List.replicate d 1)), 1)
  | some (Tensor.scalar s) => (Tensor.scalar (1 / s), s)
  | some (Tensor.vector v) =>
      (Tensor.matrix (diagL (v.map (fun a => 1 / a))), v.prod)
  | some (Tensor.matrix m) => (Tensor.matrix (P.matInv m), P.matDet m)

/-- Model of `Norm.logpdf`: dimensionality from the observation, residual
per the mean, covariance pair per the rank dispatch, then the
one-dimensional scalar-arithmetic path when `d = 1` and the quadratic-form
path `0.5*dot(dot(transpose(r), Sigma_inv), r)` otherwise; the result is
reshaped flat. -/
def Norm.logpdf (self : Norm) (P : Prims) (x : Tensor)
    (mu Sigma : Option Tensor) : Option Tensor := do
  let d := (getDims x).headD 0
  let r ← residual x mu d
  let SD := sigmaInvDet P d Sigma
  let base := Tensor.scalar
    (-(1 / 2 : ℚ) * (d : ℚ) * P.log2pi - (1 / 2 : ℚ) * P.log SD.2)
  if d = 1 then
    let q1 ← bcast (fun a b => a * b) (tmap (fun a => (1 / 2 : ℚ) * a) r) SD.1
    let q2 ← bcast (fun a b => a * b) q1 r
    let lps ← bcast (fun a b => a - b) base q2
    pure (reshapeFlat lps)
  else
    let m1 ← dot (transposeT r) SD.1
    let m2 ← dot m1 r
    let lps ← bcast (fun a b => a - b) base
      (tmap (fun a => (1 / 2 : ℚ) * a) m2)
    pure (reshapeFlat lps)

/-- Model of `Norm.entropy`: `0.5*(d + d*log(2*pi) + log(det_Sigma))`
with the dimensionality read from `Sigma` and the determinant chosen by
the three-way rank branch (the scalar itself, the product of the entries
of a vector, the engine determinant of a matrix). -/
def Norm.entropy (self : Norm) (P : Prims) (Sigma : Tensor) : Tensor :=
  let d := (getDims Sigma).headD 0
  let det : ℚ :=
    match Sigma with
    | Tensor.scalar s => s
    | Tensor.vector v => v.prod
    | Tensor.matrix m => P.matDet m
  Tensor.scalar ((1 / 2 : ℚ) * ((d : ℚ) + (d : ℚ) * P.log2pi + P.log det))

/-- The Poisson distribution (stateless instance type). -/
structure Poisson where

/-- Model of `Poisson.logpmf`: `x*log(mu) - mu - log_gamma(x+1)`. -/
def Poisson.logpmf (self : Poisson) (P : Prims) (x mu : Tensor) :
    Option Tensor := do
  let x := squeeze x
  let mu := squeeze mu
  let u ← bcast (fun a b => a * b) x (tmap P.log mu)
  let s ← bcast (fun a b => a - b) u mu
  bcast (fun a b => a - b) s (tmap (fun v => P.logGamma (v + 1)) x)

/-- The Student-t distribution (stateless instance type). -/
structure T where

/-- Model of `T.logpdf`:
`0.5*log_gamma(df+1) - log_gamma(0.5*df) - 0.5*(log(pi) + log(df))
 + log(scale) - 0.5*(df+1)*log(1 + (1/df)*square((x-loc)/scale))`. -/
def T.logpdf (self : T) (P : Prims) (x df loc scale : Tensor) :
    Option Tensor := do
  let x := squeeze x
  let df := squeeze df
  let loc := squeeze loc
  let scale := squeeze scale
  let t1 := tmap (fun v => (1 / 2 : ℚ) * P.logGamma (v + 1)) df
  let t2 := tmap (fun v => P.logGamma ((1 / 2 : ℚ) * v)) df
  let t3 := tmap (fun v => (1 / 2 : ℚ) * (P.logPi + P.log v)) df
  let t4 := tmap P.log scale
  let r1 ← bcast (fun a b => a - b) x loc
  let r2 ← bcast (fun a b => a / b) r1 scale
  let sq := tmap (fun v => v ^ 2) r2
  let m ← bcast (fun a b => a * b) (tmap (fun v => 1 / v) df) sq
  let lg := tmap (fun v => P.log (1 + v)) m
  let t5 ← bcast (fun a b => a * b)
    (tmap (fun v => (1 / 2 : ℚ) * (v + 1)) df) lg
  let a1 ← bcast (fun a b => a - b) t1 t2
  let a2 ← bcast (fun a b => a - b) a1 t3
  let a3 ← bcast (fun a b => a + b) a2 t4
  bcast (fun a b => a - b) a3 t5

/-- The Wishart distribution (stateless instance type). -/
structure Wishart where

/-- Model of `Wishart.logpdf`: the body is a bare
`raise NotImplementedError()`, modelled as an unconditional error
result. -/
def Wishart.logpdf (self : Wishart) (x df scale : Tensor) :
    Except String Tensor :=
  Except.error "NotImplementedError"

/-- Module-level singleton instance, as built at the bottom of the
module. -/
def bernoulli : Bernoulli := {}

/-- Module-level singleton instance. -/
def beta : Beta := {}

/-- Module-level singleton instance. -/
def dirichlet : Dirichlet := {}

/-- Module-level singleton instance. -/
def expon : Expon := {}

/-- Module-level singleton instance. -/
def gamma : Gamma := {}

/-- Module-level singleton instance. -/
def invgamma : InvGamma := {}

/-- Module-level singleton instance. -/
def multinomial : Multinomial := {}

/-- Module-level singleton instance. -/
def norm : Norm := {}

/-- Module-level singleton instance. -/
def poisson : Poisson := {}

/-- Module-level singleton instance. -/
def t : T := {}

/-- Module-level singleton instance. -/
def wishart : Wishart := {}

/-- Spec-side restatement of step 2 of the Normal log-density for an
absent mean: "r = x broadcast to length d", for observations of the
documented ranks (scalar or vector). -/
def specBroadcastTo (d : Nat) (x : Tensor) : Option Tensor :=
  match x with
  | Tensor.scalar a => some (Tensor.vector (List.replicate d a))
  | Tensor.vector v => some (Tensor.vector v)
  | Tensor.matrix _ => none

/-- Spec-side restatement of the Normal log-density, written from the
formulas of spec section 4.3: dimensionality from the leading shape of the
observation; residual per the mean; `(Sigma_inv, det_Sigma)` per the
four-way rank branch; then
`-0.5*d*log(2*pi) - 0.5*log(det_Sigma) - 0.5*r*Sigma_inv*r` when `d = 1`
and the quadratic form via matrix products otherwise; result reshaped to a
flat one-dimensional sequence. -/
def specNormLogpdf (P : Prims) (x : Tensor) (mu Sigma : Option Tensor) :
    Option Tensor := do
  let d := (getDims x).headD 0
  let r ← (match mu with
    | none => specBroadcastTo d x
    | some (Tensor.scalar c) => bcast (fun a b => a - b) x (Tensor.scalar c)
    | some m => bcast (fun a b => a - b) x m)
  let SD := sigmaInvDet P d Sigma
  let base := Tensor.scalar
    (-(1 / 2 : ℚ) * (d : ℚ) * P.log2pi - (1 / 2 : ℚ) * P.log SD.2)
  if d = 1 then
    let q1 ← bcast (fun a b => a * b) (tmap (fun a => (1 / 2 : ℚ) * a) r) SD.1
    let q2 ← bcast (fun a b => a * b) q1 r
    let lps ← bcast (fun a b => a - b) base q2
    pure (reshapeFlat lps)
  else
    let m1 ← dot (transposeT r) SD.1
    let m2 ← dot m1 r
    let lps ← bcast (fun a b => a - b) base
      (tmap (fun a => (1 / 2 : ℚ) * a) m2)
    pure (reshapeFlat lps)

/-- Concrete instantiation of the external primitives, used to evaluate
the model at concrete inputs: a simple log-like kernel that vanishes at
one, vanishing special functions, and the entrywise reciprocal and the
diagonal product as matrix kernels (these agree with the true inverse and
determinant on the diagonal matrices at which they are evaluated). -/
def P0 : Prims :=
  Prims.mk (fun q => q - 1) 2 1 (fun _ _ => 0) (fun _ => 0) (fun _ _ => 0)
    (fun _ => 0) (fun _ _ => 0)
    (fun m => m.map (List.map (fun a => 1 / a)))
    (fun m => (m.enum.map (fun p => p.2.getD p.1 0)).prod)

/-- Reading a replicated list at any position yields the replicated value
inside the range and the default outside it. -/
theorem replicate_getD (n : Nat) (c : ℚ) :
    ∀ i : Nat, (List.replicate n c).getD i 0 = if i < n then c else 0 := by
  induction n with
  | zero => intro i; simp
  | succ n ih =>
    intro i
    cases i with
    | zero => simp [List.replicate_succ]
    | succ i => simpa [List.replicate_succ] using ih i

/-- Elementwise reciprocal commutes with positional reads, using that the
reciprocal of zero is zero. -/
theorem map_recip_getD (v : List ℚ) :
    ∀ i : Nat, (v.map (fun a => 1 / a)).getD i 0 = 1 / v.getD i 0 := by
  induction v with
  | nil => intro i; simp
  | cons a v ih =>
    intro i
    cases i with
    | zero => simp
    | succ i => simpa using ih i

/-- Reading a row of a matrix whose rows were all prefixed with a zero. -/
theorem cons0_getD (rows : List (List ℚ)) :
    ∀ i : Nat, (rows.map (fun r => (0 : ℚ) :: r)).getD i [] =
      if i < rows.length then 0 :: rows.getD i [] else [] := by
  induction rows with
  | nil => intro i; simp
  | cons r rows ih =>
    intro i
    cases i with
    | zero => simp
    | succ i => simpa using ih i

/-- The diagonal matrix of a vector has as many rows as the vector has
entries. -/
theorem diagL_length (v : List ℚ) : (diagL v).length = v.length := by
  induction v with
  | nil => rfl
  | cons a v ih => simp [diagL, ih]

/-- Row `i` of the diagonal matrix of `v`: `i` zeros, then the entry
`v i`, then zeros filling the row out to the length of `v`. -/
theorem diagL_getD (v : List ℚ) :
    ∀ i : Nat, (diagL v).getD i [] =
      if i < v.length then
        List.replicate i 0 ++
          (v.getD i 0 :: List.replicate (v.length - i - 1) 0)
      else [] := by
  induction v with
  | nil => intro i; simp [diagL]
  | cons a v ih =>
    intro i
    cases i with
    | zero => simp [diagL]
    | succ i =>
      rw [show diagL (a :: v) =
          (a :: List.replicate v.length 0) ::
            (diagL v).map (fun r => (0 : ℚ) :: r) from rfl,
        List.getD_cons_succ, cons0_getD, diagL_length]
      by_cases h : i < v.length
      · rw [if_pos h, ih i, if_pos h,
          if_pos (show i + 1 < (a :: v).length by simp; omega)]
        simp [List.replicate_succ, Nat.succ_sub_succ_eq_sub]
      · rw [if_neg h, if_neg (show ¬(i + 1 < (a :: v).length) by simp; omega)]

/-- Reading inside a row made of `n` zeros, a payload entry, and trailing
zeros: only position `n` is nonzero. -/
theorem zeros_payload_getD (c : ℚ) (k : Nat) :
    ∀ (n j : Nat),
      (List.replicate n (0 : ℚ) ++ (c :: List.replicate k 0)).getD j 0 =
        if j = n then c else 0 := by
  intro n
  induction n with
  | zero =>
    intro j
    cases j with
    | zero => simp
    | succ j => simp [replicate_getD]
  | succ n ih =>
    intro j
    cases j with
    | zero => simp [List.replicate_succ]
    | succ j => simpa [List.replicate_succ] using ih j

/-- Entry description of the diagonal matrix: the diagonal carries the
entries of the vector, everything else reads as zero. -/
theorem diag_entry (v : List ℚ) (i j : Nat) :
    getEntry (diagL v) i j =
      if i = j ∧ i < v.length then v.getD i 0 else 0 := by
  unfold getEntry
  rw [diagL_getD]
  by_cases h : i < v.length
  · rw [if_pos h, zeros_payload_getD]
    by_cases hij : i = j
    · subst hij; simp [h]
    · rw [if_neg (fun hh => hij hh.symm), if_neg (fun hc => hij hc.1)]
  · rw [if_neg h, if_neg (fun hc => h hc.2)]
    simp

/-- Row lengths of the diagonal matrix: every actual row has the length
of the vector. -/
theorem diag_row_length (v : List ℚ) (i : Nat) :
    ((diagL v).getD i []).length = if i < v.length then v.length else 0 := by
  rw [diagL_getD]
  by_cases h : i < v.length
  · simp [h]; omega
  · simp [h]

/-- Broadcasting against a one-entry list multiplies through that
entry. -/
theorem bcastVV_singleton (f : ℚ → ℚ → ℚ) (u : List ℚ) (w0 : ℚ) :
    bcastVV f u [w0] = some (u.map (fun a => f a w0)) := by
  match u with
  | [] => simp [bcastVV]
  | [a] => simp [bcastVV]
  | a :: b :: u => simp [bcastVV]

/-- Broadcasting lists of equal length combines them pointwise. -/
theorem bcastVV_eqlen (f : ℚ → ℚ → ℚ) (v w : List ℚ)
    (h : v.length = w.length) : bcastVV f v w = some (List.zipWith f v w) := by
  simp [bcastVV, h]

/-- Multiplying elementwise by a list of ones is the identity. -/
theorem zipWith_one_mul (v : List ℚ) :
    List.zipWith (fun a b => a * b) (List.replicate v.length 1) v = v := by
  induction v with
  | nil => rfl
  | cons a v ih => simp [List.replicate_succ, ih]

/-- The flat reshape always produces a one-dimensional tensor. -/
theorem reshapeFlat_vector (u : Tensor) : ∃ v, reshapeFlat u = Tensor.vector v := by
  cases u <;> exact ⟨_, rfl⟩

/-- A successful optional bind passes through a successful intermediate
value. -/
theorem bind_some_ex {o : Option Tensor} {f : Tensor → Option Tensor}
    {u : Tensor} (h : o >>= f = some u) : ∃ a, f a = some u := by
  cases o with
  | none => simp at h
  | some a => exact ⟨a, by simpa using h⟩

/-- Broadcast combination of tensors of rank at most one has rank at most
one. -/
theorem bcast_rank (f : ℚ → ℚ → ℚ) (t u v : Tensor)
    (ht : isRankLE1 t = true) (hu : isRankLE1 u = true)
    (h : bcast f t u = some v) : isRankLE1 v = true := by
  cases t with
  | scalar a =>
    cases u with
    | scalar b => cases h; rfl
    | vector w => cases h; rfl
    | matrix m => cases hu
  | vector w =>
    cases u with
    | scalar b => cases h; rfl
    | vector w2 =>
      simp only [bcast, Option.map_eq_some'] at h
      obtain ⟨z, _, hz⟩ := h
      cases hz; rfl
    | matrix m => cases hu
  | matrix m => cases ht

/-- The residual of the Normal log-density keeps rank at most one when
the observation and the mean do. -/
theorem residual_rank (x : Tensor) (mu : Option Tensor) (d : Nat)
    (t : Tensor) (hx : isRankLE1 x = true) (hmu : argRankLE1 mu = true)
    (h : residual x mu d = some t) : isRankLE1 t = true := by
  cases mu with
  | none =>
    exact bcast_rank _ (Tensor.vector (List.replicate d 1)) x t rfl hx h
  | some m =>
    cases m with
    | scalar c => exact bcast_rank _ x (Tensor.scalar c) t hx rfl h
    | vector w => exact bcast_rank _ x (Tensor.vector w) t hx rfl h
    | matrix m2 => cases hmu

/-- C1: in `Norm.logpdf` the pair `(Sigma_inv, det_Sigma)` is chosen by
exactly one branch determined by the rank of `Sigma`: absent covariance
gives the d-by-d identity matrix and determinant one; a rank-0 scalar
gives the scalar reciprocal and the scalar itself; a rank-1 vector gives
the diagonal matrix of elementwise reciprocals and the product of the
entries; a rank-2 matrix gives the general matrix inverse and the general
matrix determinant. -/
theorem norm_sigma_dispatch (P : Prims) (d : Nat) :
    sigmaInvDet P d none = (Tensor.matrix (diagL (List.replicate d 1)), 1)
    ∧ (∀ i j, getEntry (diagL (List.replicate d 1)) i j =
        if i = j ∧ i < d then 1 else 0)
    ∧ (diagL (List.replicate d 1)).length = d
    ∧ (∀ s : ℚ,
        sigmaInvDet P d (some (Tensor.scalar s)) = (Tensor.scalar (1 / s), s))
    ∧ (∀ v : List ℚ,
        sigmaInvDet P d (some (Tensor.vector v)) =
          (Tensor.matrix (diagL (v.map (fun a => 1 / a))), v.prod)
        ∧ ∀ i j, getEntry (diagL (v.map (fun a => 1 / a))) i j =
            if i = j ∧ i < v.length then 1 / v.getD i 0 else 0)
    ∧ (∀ m, sigmaInvDet P d (some (Tensor.matrix m)) =
        (Tensor.matrix (P.matInv m), P.matDet m)) := by
  refine ⟨rfl, ?_, ?_, fun s => rfl, fun v => ⟨rfl, ?_⟩, fun m => rfl⟩
  · intro i j
    simp only [diag_entry, List.length_replicate, replicate_getD]
    split_ifs with h1 h2
    · rfl
    · exact absurd h1.2 h2
    · rfl
  · rw [diagL_length, List.length_replicate]
  · intro i j
    simp only [diag_entry, List.length_map, map_recip_getD]

/-- C4, counterexample: at `x = 1/2`, `a = 1`, `b = 2` the value returned
by `Beta.logpdf` differs from the claimed closed form
`(b-1)*log(x) + (a-1)*log(1-x) - logBeta(b, a)`, because the sequential
rebindings set both shape parameters to the original `b` rather than
exchanging them. -/
theorem beta_swap_cx :
    (Beta.logpdf beta P0 (Tensor.scalar (1 / 2)) (Tensor.scalar 1)
        (Tensor.scalar 2) =
      some (Tensor.scalar ((2 - 1) * P0.log (1 / 2) +
        (1 - 1) * P0.log (1 - 1 / 2) - P0.logBeta 2 1))) = False :=
  eq_false (by norm_num [Beta.logpdf, squeeze, tmap, bcast, P0])

/-- C4, amended: `Beta.logpdf(x, a, b)` evaluates the closed form with
both shape parameters equal to the original `b`, returning
`(b-1)*log(x) + (b-1)*log(1-x) - logBeta(b, b)`. -/
theorem beta_logpdf_both_b (P : Prims) (bi : Beta) (x a b : ℚ) :
    Beta.logpdf bi P (Tensor.scalar x) (Tensor.scalar a) (Tensor.scalar b) =
      some (Tensor.scalar
        ((b - 1) * P.log x + (b - 1) * P.log (1 - x) - P.logBeta b b)) :=
  rfl

/-- C5: because `a = squeeze(b)` and then `b = squeeze(a)` execute
sequentially, both shape parameters take the value of the original `b`;
the result is `(b-1)*log(x) + (b-1)*log(1-x) - logBeta(b, b)` and is
entirely independent of the argument `a`. -/
theorem beta_logpdf_ignores_a (P : Prims) (bi : Beta) :
    (∀ x a1 a2 b : Tensor,
      Beta.logpdf bi P x a1 b = Beta.logpdf bi P x a2 b)
    ∧ ∀ x a b : ℚ,
        Beta.logpdf bi P (Tensor.scalar x) (Tensor.scalar a)
            (Tensor.scalar b) =
          some (Tensor.scalar
            ((b - 1) * P.log x + (b - 1) * P.log (1 - x) - P.logBeta b b)) :=
  ⟨fun _ _ _ _ => rfl, fun _ _ _ => rfl⟩

/-- C6: `Norm.entropy(Sigma)` equals
`0.5*(d + d*log(2*pi) + log(det_Sigma))` with the determinant derived
from the rank of `Sigma` by the same three-way branch as the log-density
(scalar: the scalar itself; vector: product of the entries; matrix: the
engine determinant); the function takes no mean or location parameter and
depends on nothing besides `Sigma` and the stateless instance. -/
theorem norm_entropy_formula (P : Prims) (n n2 : Norm) :
    (∀ s : ℚ, Norm.entropy n P (Tensor.scalar s) =
      Tensor.scalar ((1 / 2 : ℚ) * (1 + 1 * P.log2pi + P.log s)))
    ∧ (∀ v : List ℚ, Norm.entropy n P (Tensor.vector v) =
      Tensor.scalar ((1 / 2 : ℚ) *
        ((v.length : ℚ) + (v.length : ℚ) * P.log2pi + P.log v.prod)))
    ∧ (∀ m : List (List ℚ), Norm.entropy n P (Tensor.matrix m) =
      Tensor.scalar ((1 / 2 : ℚ) *
        ((m.length : ℚ) + (m.length : ℚ) * P.log2pi + P.log (P.matDet m))))
    ∧ (∀ Sigma : Tensor, Norm.entropy n P Sigma = Norm.entropy n2 P Sigma) := by
  refine ⟨fun s => ?_, fun v => rfl, fun m => rfl, fun Sigma => rfl⟩
  simp [Norm.entropy, getDims]

/-- C7: whenever `Norm.logpdf` returns, the result is a flat
one-dimensional tensor, never a bare scalar, because the value is
reshaped flat on every successful path. -/
theorem norm_logpdf_flat (P : Prims) (x : Tensor) (mu Sigma : Option Tensor)
    (u : Tensor) (h : Norm.logpdf norm P x mu Sigma = some u) :
    ∃ v, u = Tensor.vector v := by
  unfold Norm.logpdf at h
  obtain ⟨r, h⟩ := bind_some_ex h
  split at h
  · obtain ⟨q1, h⟩ := bind_some_ex h
    obtain ⟨q2, h⟩ := bind_some_ex h
    obtain ⟨lps, h⟩ := bind_some_ex h
    obtain ⟨v, hv⟩ := reshapeFlat_vector lps
    have hu : reshapeFlat lps = u := by simpa using h
    exact ⟨v, hu ▸ hv⟩
  · obtain ⟨m1, h⟩ := bind_some_ex h
    obtain ⟨m2, h⟩ := bind_some_ex h
    obtain ⟨lps, h⟩ := bind_some_ex h
    obtain ⟨v, hv⟩ := reshapeFlat_vector lps
    have hu : reshapeFlat lps = u := by simpa using h
    exact ⟨v, hu ▸ hv⟩

/-- C7, witness: a successful call at the scalar observation zero with
absent mean and covariance returns the one-entry flat vector. -/
theorem norm_logpdf_flat_witness :
    Norm.logpdf norm P0 (Tensor.scalar 0) none none =
      some (Tensor.vector [(-1 : ℚ)])
    ∧ ∃ v, Tensor.vector [(-1 : ℚ)] = Tensor.vector v :=
  have heval : Norm.logpdf norm P0 (Tensor.scalar 0) none none =
      some (Tensor.vector [(-1 : ℚ)]) := by
    norm_num [Norm.logpdf, residual, getDims, sigmaInvDet, bcast, bcastVV,
      allSome, tmap, diagL, reshapeFlat, P0]
  ⟨heval, norm_logpdf_flat P0 (Tensor.scalar 0) none none
    (Tensor.vector [(-1 : ℚ)]) heval⟩

/-- C8: `Wishart.logpdf` signals an explicit not-implemented failure for
every input and never returns a value. -/
theorem wishart_logpdf_raises (w : Wishart) (x df scale : Tensor) :
    Wishart.logpdf w x df scale = Except.error "NotImplementedError"
    ∧ ∀ v : Tensor, (Wishart.logpdf w x df scale = Except.ok v) = False :=
  ⟨rfl, fun v => eq_false (fun h => Except.noConfusion h)⟩

/-- C9: `T.logpdf(x, df, loc, scale)` equals
`0.5*logGamma(df+1) - logGamma(0.5*df) - 0.5*(log(pi) + log(df))
 + log(scale) - 0.5*(df+1)*log(1 + (1/df)*((x-loc)/scale)^2)`, exactly as
in the table of the spec, including the `+ log(scale)` term and the
`0.5*logGamma(df+1)` leading term. -/
theorem t_logpdf_formula (P : Prims) (ti : T) (x df loc scale : ℚ) :
    T.logpdf ti P (Tensor.scalar x) (Tensor.scalar df) (Tensor.scalar loc)
        (Tensor.scalar scale) =
      some (Tensor.scalar
        ((1 / 2 : ℚ) * P.logGamma (df + 1) - P.logGamma ((1 / 2 : ℚ) * df)
          - (1 / 2 : ℚ) * (P.logPi + P.log df) + P.log scale
          - (1 / 2 : ℚ) * (df + 1) *
              P.log (1 + 1 / df * ((x - loc) / scale) ^ 2))) :=
  rfl

/-- C10: every log-density, log-mass and entropy operation is a pure
function of its arguments alone: the instance types carry no fields, any
instance equals the module-level singleton, and evaluating a method on
any two instances with identical inputs yields identical outputs, so the
shared singletons cannot influence one call from another. -/
theorem distributions_stateless :
    (∀ i : Bernoulli, i = bernoulli) ∧ (∀ i : Beta, i = beta)
    ∧ (∀ i : Dirichlet, i = dirichlet) ∧ (∀ i : Expon, i = expon)
    ∧ (∀ i : Gamma, i = gamma) ∧ (∀ i : InvGamma, i = invgamma)
    ∧ (∀ i : Multinomial, i = multinomial) ∧ (∀ i : Norm, i = norm)
    ∧ (∀ i : Poisson, i = poisson) ∧ (∀ i : T, i = t)
    ∧ (∀ i : Wishart, i = wishart)
    ∧ (∀ (i i2 : Bernoulli) (P : Prims) (x p : Tensor),
        Bernoulli.logpmf i P x p = Bernoulli.logpmf i2 P x p)
    ∧ (∀ (i i2 : Beta) (P : Prims) (x a b : Tensor),
        Beta.logpdf i P x a b = Beta.logpdf i2 P x a b)
    ∧ (∀ (i i2 : Dirichlet) (P : Prims) (x alpha : Tensor),
        Dirichlet.logpdf i P x alpha = Dirichlet.logpdf i2 P x alpha)
    ∧ (∀ (i i2 : Expon) (P : Prims) (x scale : Tensor),
        Expon.logpdf i P x scale = Expon.logpdf i2 P x scale)
    ∧ (∀ (i i2 : Gamma) (P : Prims) (x a scale : Tensor),
        Gamma.logpdf i P x a scale = Gamma.logpdf i2 P x a scale)
    ∧ (∀ (i i2 : InvGamma) (P : Prims) (x alpha b2 : Tensor),
        InvGamma.logpdf i P x alpha b2 = InvGamma.logpdf i2 P x alpha b2)
    ∧ (∀ (i i2 : Multinomial) (P : Prims) (x n p : Tensor),
        Multinomial.logpmf i P x n p = Multinomial.logpmf i2 P x n p)
    ∧ (∀ (i i2 : Norm) (P : Prims) (x : Tensor) (mu Sigma : Option Tensor),
        Norm.logpdf i P x mu Sigma = Norm.logpdf i2 P x mu Sigma)
    ∧ (∀ (i i2 : Norm) (P : Prims) (Sigma : Tensor),
        Norm.entropy i P Sigma = Norm.entropy i2 P Sigma)
    ∧ (∀ (i i2 : Poisson) (P : Prims) (x mu : Tensor),
        Poisson.logpmf i P x mu = Poisson.logpmf i2 P x mu)
    ∧ (∀ (i i2 : T) (P : Prims) (x df loc scale : Tensor),
        T.logpdf i P x df loc scale = T.logpdf i2 P x df loc scale)
    ∧ (∀ (i i2 : Wishart) (x df scale : Tensor),
        Wishart.logpdf i x df scale = Wishart.logpdf i2 x df scale) :=
  ⟨fun i => by cases i; rfl, fun i => by cases i; rfl,
    fun i => by cases i; rfl, fun i => by cases i; rfl,
    fun i => by cases i; rfl, fun i => by cases i; rfl,
    fun i => by cases i; rfl, fun i => by cases i; rfl,
    fun i => by cases i; rfl, fun i => by cases i; rfl,
    fun i => by cases i; rfl,
    fun _ _ _ _ _ => rfl, fun _ _ _ _ _ _ => rfl, fun _ _ _ _ _ => rfl,
    fun _ _ _ _ _ => rfl, fun _ _ _ _ _ _ => rfl, fun _ _ _ _ _ _ => rfl,
    fun _ _ _ _ _ _ => rfl, fun _ _ _ _ _ _ => rfl, fun _ _ _ _ => rfl,
    fun _ _ _ _ _ => rfl, fun _ _ _ _ _ _ _ => rfl, fun _ _ _ _ _ => rfl⟩

/-- C2: for every call in the documented observation domain (scalar or
vector `x`), `Norm.logpdf` agrees with the spec-side formula: with
residual `r` and the `(Sigma_inv, det_Sigma)` of the rank dispatch, the
result is `-0.5*d*log(2*pi) - 0.5*log(det_Sigma) - 0.5*r*Sigma_inv*r` by
broadcast scalar arithmetic when `d = 1` and the quadratic form
`-0.5*d*log(2*pi) - 0.5*log(det_Sigma) - 0.5*dot(dot(transpose(r),
Sigma_inv), r)` via matrix products otherwise, reshaped flat. -/
theorem norm_logpdf_matches_spec (P : Prims) (x : Tensor)
    (mu Sigma : Option Tensor) (hx : isRankLE1 x = true) :
    Norm.logpdf norm P x mu Sigma = specNormLogpdf P x mu Sigma := by
  cases mu with
  | none =>
    have hres : residual x none ((getDims x).headD 0) =
        specBroadcastTo ((getDims x).headD 0) x := by
      cases x with
      | scalar a =>
        simp [residual, specBroadcastTo, getDims, bcast, List.replicate]
      | vector v =>
        simp [residual, specBroadcastTo, getDims, bcast, bcastVV,
          zipWith_one_mul]
      | matrix m => cases hx
    simp only [Norm.logpdf, specNormLogpdf, hres]
  | some m =>
    cases m with
    | scalar c => rfl
    | vector w => rfl
    | matrix m2 => rfl

/-- C2, witness: the equality of the code path and the spec-side formula
at the scalar observation zero. -/
theorem norm_logpdf_matches_spec_witness :
    isRankLE1 (Tensor.scalar 0) = true
    ∧ Norm.logpdf norm P0 (Tensor.scalar 0) none none =
        specNormLogpdf P0 (Tensor.scalar 0) none none :=
  ⟨rfl, norm_logpdf_matches_spec P0 (Tensor.scalar 0) none none rfl⟩

/-- C3, counterexample: the four covariance branches do not agree at
every point.  At the two-dimensional observation `[0, 0]` with absent
mean, the scalar covariance branch (`Sigma = 1`) reaches the dot-product
helper with a scalar operand and fails with a shape error, while the
absent branch returns a value, so the two branches are not equal there.
-/
theorem norm_branch_scalar_cx :
    (Norm.logpdf norm P0 (Tensor.vector [0, 0]) none
        (some (Tensor.scalar 1)) =
      Norm.logpdf norm P0 (Tensor.vector [0, 0]) none none) = False :=
  eq_false (by
    norm_num [Norm.logpdf, residual, getDims, sigmaInvDet, bcast, bcastVV,
      allSome, tmap, diagL, reshapeFlat, dot, transposeT, matmulL, colGet,
      dotv, List.replicate, List.range, List.range.loop, P0]
    decide)

/-- C3, amended: the covariance branches agree exactly on equivalent
covariances wherever they are defined.  For observations and means of the
documented ranks, with `d` the dimensionality of the observation and the
engine inverse and determinant correct on `s*I`: the vector branch with
every entry `s` agrees with the matrix branch at `s*I` for every `d`; the
absent branch agrees with the vector branch of ones (the case `s = 1`)
for every `d`; and when `d = 1` the scalar branch at `s` agrees with
them as well.  (For `d > 1` the scalar branch is not defined: it fails in
the dot-product helper, as the counterexample shows.) -/
theorem norm_branch_agreement (P : Prims) (s : ℚ) (d : Nat) (x : Tensor)
    (mu : Option Tensor) (hx : isRankLE1 x = true)
    (hmu : argRankLE1 mu = true) (hd : d = (getDims x).headD 0)
    (hInv : P.matInv (diagL (List.replicate d s)) =
      diagL (List.replicate d (1 / s)))
    (hDet : P.matDet (diagL (List.replicate d s)) = s ^ d) :
    Norm.logpdf norm P x mu (some (Tensor.vector (List.replicate d s))) =
      Norm.logpdf norm P x mu
        (some (Tensor.matrix (diagL (List.replicate d s))))
    ∧ Norm.logpdf norm P x mu none =
        Norm.logpdf norm P x mu
          (some (Tensor.vector (List.replicate d 1)))
    ∧ (d = 1 →
        Norm.logpdf norm P x mu (some (Tensor.scalar s)) =
          Norm.logpdf norm P x mu
            (some (Tensor.vector (List.replicate d s)))) := by
  subst hd
  refine ⟨?_, ?_, ?_⟩
  · have hSD : sigmaInvDet P ((getDims x).headD 0)
        (some (Tensor.vector (List.replicate ((getDims x).headD 0) s))) =
        sigmaInvDet P ((getDims x).headD 0)
          (some (Tensor.matrix
            (diagL (List.replicate ((getDims x).headD 0) s)))) := by
      simp only [sigmaInvDet, List.map_replicate, List.prod_replicate,
        hInv, hDet]
    simp only [Norm.logpdf, hSD]
  · have hSD : sigmaInvDet P ((getDims x).headD 0) none =
        sigmaInvDet P ((getDims x).headD 0)
          (some (Tensor.vector (List.replicate ((getDims x).headD 0) 1))) := by
      simp only [sigmaInvDet, List.map_replicate, List.prod_replicate,
        one_div_one, one_pow]
    simp only [Norm.logpdf, hSD]
  · intro hd1
    simp only [Norm.logpdf, hd1]
    cases hr : residual x mu 1 with
    | none => simp
    | some r =>
      have hrk := residual_rank x mu 1 r hx hmu hr
      cases r with
      | scalar c =>
        simp [sigmaInvDet, bcast, tmap, diagL, reshapeFlat, allSome,
          List.replicate, List.prod_cons, List.prod_nil]
      | vector u =>
        simp [sigmaInvDet, bcast, tmap, diagL, reshapeFlat, allSome,
          bcastVV_singleton, bcastVV_eqlen, List.replicate, List.prod_cons,
          List.prod_nil, List.length_map]
      | matrix mm => cases hrk

/-- C3, witness: the amended branch agreement at the two-dimensional
observation `[3, 4]`, absent mean and `s = 2`, where the concrete engine
kernels compute the inverse and determinant of `2*I` correctly. -/
theorem norm_branch_agreement_witness :
    isRankLE1 (Tensor.vector [3, 4]) = true
    ∧ argRankLE1 (none : Option Tensor) = true
    ∧ (2 : Nat) = (getDims (Tensor.vector [3, 4])).headD 0
    ∧ P0.matInv (diagL (List.replicate 2 (2 : ℚ))) =
        diagL (List.replicate 2 (1 / 2 : ℚ))
    ∧ P0.matDet (diagL (List.replicate 2 (2 : ℚ))) = (2 : ℚ) ^ 2
    ∧ (Norm.logpdf norm P0 (Tensor.vector [3, 4]) none
          (some (Tensor.vector (List.replicate 2 (2 : ℚ)))) =
        Norm.logpdf norm P0 (Tensor.vector [3, 4]) none
          (some (Tensor.matrix (diagL (List.replicate 2 (2 : ℚ)))))
      ∧ Norm.logpdf norm P0 (Tensor.vector [3, 4]) none none =
          Norm.logpdf norm P0 (Tensor.vector [3, 4]) none
            (some (Tensor.vector (List.replicate 2 (1 : ℚ))))
      ∧ ((2 : Nat) = 1 →
          Norm.logpdf norm P0 (Tensor.vector [3, 4]) none
              (some (Tensor.scalar (2 : ℚ))) =
            Norm.logpdf norm P0 (Tensor.vector [3, 4]) none
              (some (Tensor.vector (List.replicate 2 (2 : ℚ)))))) :=
  ⟨rfl, rfl, rfl,
    by norm_num [P0, diagL, List.replicate],
    by norm_num [P0, diagL, List.replicate, List.enum, List.enumFrom],
    norm_branch_agreement P0 2 2 (Tensor.vector [3, 4]) none rfl rfl rfl
      (by norm_num [P0, diagL, List.replicate])
      (by norm_num [P0, diagL, List.replicate, List.enum, List.enumFrom])⟩

end Blackbox
